import Mathlib

/-!
Verification of the CrossRule detection → canonicalization → re-serialization
pipeline. The definitions below are a shallow embedding of the TypeScript
source (src/utils/index.ts, src/parsers/index.ts, src/converters/index.ts,
src/converters/universal.ts). External collaborators (the filesystem, the
gray-matter YAML parser, the js-yaml dumper) are modelled as explicit
oracles/parameters; all repository logic is embedded concretely.
-/

namespace CrossRule

/-- The `EditorType` string union from src/types/index.ts. -/
inductive EditorType
  | cursor
  | windsurf
  | cline
  | vscode
  | codex
  | claudeCode
  | qoder
  | trae
  | qwencoder
deriving DecidableEq, Fintype

/-- The `RuleType` string union from src/types/index.ts. -/
inductive RuleType
  | always
  | autoAttached
  | agentRequested
  | manual
  | modelDecision
  | globPattern
  | specificFiles
deriving DecidableEq

/-- The string that `${editor}` interpolates to in TypeScript
(the value of the `EditorType` string union). -/
def editorName : EditorType → String
  | .cursor => "cursor"
  | .windsurf => "windsurf"
  | .cline => "cline"
  | .vscode => "vscode"
  | .codex => "codex"
  | .claudeCode => "claude-code"
  | .qoder => "qoder"
  | .trae => "trae"
  | .qwencoder => "qwencoder"

/-- `EditorConfig` from src/types/index.ts. Optional TS fields are
`Option`s; optional array fields are `[]` when absent (the code only
iterates them). -/
structure EditorConfig where
  name : String
  displayName : String
  fileFormats : List String
  locations : List String
  legacyLocations : List String
  aliasDisplayNames : List String
  supportedRuleTypes : List RuleType
  hasGlobSupport : Bool
  hasYamlFrontmatter : Bool
  maxFileSize : Option Nat
  maxTotalSize : Option Nat

/-- `EDITOR_CONFIGS` from src/utils/index.ts. -/
def EDITOR_CONFIGS : EditorType → EditorConfig
  | .cursor =>
    { name := "cursor", displayName := "Cursor", fileFormats := [".mdc"]
      locations := [".cursor/rules/"], legacyLocations := [".cursorrules"]
      aliasDisplayNames := []
      supportedRuleTypes := [.always, .autoAttached, .agentRequested, .manual]
      hasGlobSupport := true, hasYamlFrontmatter := true
      maxFileSize := some (500 * 80), maxTotalSize := none }
  | .windsurf =>
    { name := "windsurf", displayName := "Windsurf", fileFormats := [".md"]
      locations := [".windsurf/rules/"], legacyLocations := [".windsurfrules"]
      aliasDisplayNames := []
      supportedRuleTypes := [.manual, .modelDecision, .globPattern, .always]
      hasGlobSupport := true, hasYamlFrontmatter := true
      maxFileSize := some 12000, maxTotalSize := some 12000 }
  | .cline =>
    { name := "cline", displayName := "Cline", fileFormats := [".md"]
      locations := [".clinerules/", ".clinerules"], legacyLocations := []
      aliasDisplayNames := []
      supportedRuleTypes := [.always, .manual]
      hasGlobSupport := false, hasYamlFrontmatter := false
      maxFileSize := none, maxTotalSize := none }
  | .vscode =>
    { name := "vscode", displayName := "VSCode", fileFormats := [".md", ".json"]
      locations := [".github/instructions/", ".github/prompts/", "src/*/instructions/"]
      legacyLocations := [], aliasDisplayNames := []
      supportedRuleTypes := [.globPattern, .always]
      hasGlobSupport := true, hasYamlFrontmatter := true
      maxFileSize := none, maxTotalSize := none }
  | .codex =>
    { name := "codex", displayName := "Codex CLI", fileFormats := [".md"]
      locations := ["AGENTS.md"], legacyLocations := []
      aliasDisplayNames := ["OpenCode", "VSCode Agents", "AGENTS.md Compatible"]
      supportedRuleTypes := [.always]
      hasGlobSupport := false, hasYamlFrontmatter := false
      maxFileSize := none, maxTotalSize := none }
  | .claudeCode =>
    { name := "claude-code", displayName := "Claude Code", fileFormats := [".md"]
      locations := ["CLAUDE.md"], legacyLocations := []
      aliasDisplayNames := []
      supportedRuleTypes := [.always, .manual]
      hasGlobSupport := false, hasYamlFrontmatter := false
      maxFileSize := none, maxTotalSize := none }
  | .qoder =>
    { name := "qoder", displayName := "Qoder", fileFormats := [".md"]
      locations := [".qoder/rules/"], legacyLocations := []
      aliasDisplayNames := []
      supportedRuleTypes := [.manual, .modelDecision, .always, .specificFiles]
      hasGlobSupport := true, hasYamlFrontmatter := true
      maxFileSize := none, maxTotalSize := some 100000 }
  | .trae =>
    { name := "trae", displayName := "Trae", fileFormats := [".md"]
      locations := [".trae/rules/"], legacyLocations := [".cursorrules"]
      aliasDisplayNames := []
      supportedRuleTypes := [.always, .globPattern, .manual]
      hasGlobSupport := true, hasYamlFrontmatter := true
      maxFileSize := none, maxTotalSize := none }
  | .qwencoder =>
    { name := "qwencoder", displayName := "QwenCoder", fileFormats := [".md"]
      locations := ["QWEN.md"], legacyLocations := []
      aliasDisplayNames := []
      supportedRuleTypes := [.always]
      hasGlobSupport := false, hasYamlFrontmatter := false
      maxFileSize := none, maxTotalSize := none }

/-- `Object.keys(EDITOR_CONFIGS)` in insertion order. -/
def allEditors : List EditorType :=
  [.cursor, .windsurf, .cline, .vscode, .codex, .claudeCode, .qoder, .trae, .qwencoder]

/-- `getDisplayNamesForEditor` from src/utils/index.ts. -/
def getDisplayNamesForEditor (editor : EditorType) : List String :=
  let config := EDITOR_CONFIGS editor
  config.displayName :: config.aliasDisplayNames

/-- `getEditorByDisplayName` from src/utils/index.ts: first config (in
`Object.entries` order) whose display name or alias list matches. -/
def getEditorByDisplayName (displayName : String) : Option EditorType :=
  allEditors.find? fun editorType =>
    (EDITOR_CONFIGS editorType).displayName == displayName
      || (EDITOR_CONFIGS editorType).aliasDisplayNames.contains displayName

/-! ### String helpers

The TypeScript code uses JS string/regex primitives. They are embedded as
executable character-list functions so concrete inputs evaluate by `decide`. -/

/-- JS `toLowerCase()` (ASCII model, matching the inputs handled here). -/
def jsToLower (s : String) : String :=
  (s.toList.map Char.toLower).asString

/-- The character class `[a-z0-9]` used by the file-name regexes. -/
def isAlnumLower (c : Char) : Bool :=
  ('a' ≤ c && c ≤ 'z') || ('0' ≤ c && c ≤ '9')

/-- JS `.replace(/[^a-z0-9]/g, '-')`: each single character outside the
class becomes one hyphen. -/
def replaceEachNonAlnum (l : List Char) : List Char :=
  l.map fun c => if isAlnumLower c then c else '-'

/-- JS `.replace(/[^a-z0-9]+/g, '-')`: each maximal run of characters
outside the class becomes one hyphen. The boolean state records whether the
previous character belonged to a run already replaced. -/
def replaceRunsNonAlnum : Bool → List Char → List Char
  | _, [] => []
  | inRun, c :: rest =>
    if isAlnumLower c then c :: replaceRunsNonAlnum false rest
    else if inRun then replaceRunsNonAlnum true rest
    else '-' :: replaceRunsNonAlnum true rest

/-- JS `.trim()`. -/
def jsTrim (s : String) : String :=
  ((s.toList.dropWhile Char.isWhitespace).reverse.dropWhile Char.isWhitespace).reverse.asString

/-- Boolean prefix test on character lists. -/
def charsPrefixOf : List Char → List Char → Bool
  | [], _ => true
  | _ :: _, [] => false
  | a :: as, b :: bs => a == b && charsPrefixOf as bs

/-- Boolean infix test on character lists (needle, haystack). -/
def charsInfixOf (needle : List Char) : List Char → Bool
  | [] => needle.isEmpty
  | c :: rest => charsPrefixOf needle (c :: rest) || charsInfixOf needle rest

/-- JS `s.includes(sub)`. -/
def jsIncludes (s sub : String) : Bool :=
  charsInfixOf sub.toList s.toList

/-- JS `s.startsWith(p)`. -/
def jsStartsWith (s p : String) : Bool :=
  charsPrefixOf p.toList s.toList

/-- Split a character list at newline characters (the lines a JS multiline
regex anchors on). -/
def splitLinesChars : List Char → List (List Char)
  | [] => [[]]
  | c :: rest =>
    match splitLinesChars rest with
    | [] => [[]]
    | hd :: tl => if c = '\n' then [] :: hd :: tl else (c :: hd) :: tl

/-- Join lines back with newlines. -/
def joinLines (lines : List (List Char)) : String :=
  String.intercalate "\n" (lines.map List.asString)

/-- JS `filePath.split('/').pop()`: the part after the last slash. -/
def lastComponent (l : List Char) : List Char :=
  (l.reverse.takeWhile fun c => c ≠ '/').reverse

/-- JS `.replace(/\.[^/.]+$/, '')`: strip a final extension (a dot followed
by at least one character that is neither a dot nor a slash). -/
def stripExtChars (l : List Char) : List Char :=
  let rev := l.reverse
  let tl := rev.takeWhile fun c => c ≠ '.' && c ≠ '/'
  match rev.drop tl.length with
  | '.' :: before => if tl.isEmpty then l else before.reverse
  | _ => l

/-- `filePath.split('/').pop()?.replace(/\.[^/.]+$/, '') || 'unnamed'` from
src/parsers/index.ts. -/
def fileNameOfPath (filePath : String) : String :=
  let base := stripExtChars (lastComponent filePath.toList)
  if base.isEmpty then "unnamed" else base.asString

/-- One line of the Cline title regex `/^#\s+(.+)$/m`: returns the captured
group for the leftmost match on this line, if any (`\s+` backtracks so that
`.+` keeps at least one character). -/
def clineTitleOfLine (l : List Char) : Option String :=
  match l with
  | '#' :: rest =>
    let ws := rest.takeWhile Char.isWhitespace
    let t := rest.drop ws.length
    if ws.isEmpty then none
    else if !t.isEmpty then some t.asString
    else if 2 ≤ ws.length then some (rest.drop (ws.length - 1)).asString
    else none
  | _ => none

/-! ### Qoder content pattern scan

Embedding of `content.match(/\*\.[a-zA-Z]+|\*\*\/\*\.[a-zA-Z]+|src\/\*+/g)`
from src/parsers/index.ts: at each position the three alternatives are tried
in order, greedy suffixes, scanning resumes after a match. -/

def isAsciiAlpha (c : Char) : Bool :=
  ('a' ≤ c && c ≤ 'z') || ('A' ≤ c && c ≤ 'Z')

/-- Try the three regex alternatives at the current position; returns the
matched characters and the remaining input. -/
def qoderAlt (l : List Char) : Option (List Char × List Char) :=
  (match l with
   | '*' :: '.' :: rest =>
     let letters := rest.takeWhile isAsciiAlpha
     if letters.isEmpty then none
     else some ('*' :: '.' :: letters, rest.drop letters.length)
   | _ => none).orElse fun _ =>
  (match l with
   | '*' :: '*' :: '/' :: '*' :: '.' :: rest =>
     let letters := rest.takeWhile isAsciiAlpha
     if letters.isEmpty then none
     else some ('*' :: '*' :: '/' :: '*' :: '.' :: letters, rest.drop letters.length)
   | _ => none).orElse fun _ =>
  (match l with
   | 's' :: 'r' :: 'c' :: '/' :: rest =>
     let stars := rest.takeWhile fun c => c == '*'
     if stars.isEmpty then none
     else some ('s' :: 'r' :: 'c' :: '/' :: stars, rest.drop stars.length)
   | _ => none)

/-- Global scan; the fuel is an upper bound on the number of scan steps
(each step consumes at least one character). -/
def qoderScanAux : Nat → List Char → List String
  | 0, _ => []
  | _ + 1, [] => []
  | fuel + 1, c :: rest =>
    match qoderAlt (c :: rest) with
    | some (m, rest2) => m.asString :: qoderScanAux fuel rest2
    | none => qoderScanAux fuel rest

/-- `content.match(/\*\.[a-zA-Z]+|\*\*\/\*\.[a-zA-Z]+|src\/\*+/g)`; `[]`
plays the role of JS `null` (the code only tests non-nullness). -/
def qoderPatternMatches (s : String) : List String :=
  qoderScanAux s.toList.length s.toList

/-! ### Canonical rule model and the dialect parser -/

/-- The `metadata` bag attached by the parsers (src/parsers/index.ts).
`sectionName` embeds the TS `section` key (a Lean keyword). -/
structure RuleMetadata where
  filePath : String
  size : Option Nat := none
  sectionName : Option String := none
deriving DecidableEq

/-- `Rule` from src/types/index.ts. The optional TS `description` is `""`
when absent (the code only tests its truthiness); `patterns` is omitted
(`none`) exactly when the code spreads no `patterns` key. -/
structure Rule where
  name : String
  description : String
  content : String
  type : RuleType
  patterns : Option (List String)
  source : EditorType
  metadata : RuleMetadata
deriving DecidableEq

/-- A YAML scalar-or-list value as produced by gray-matter for a glob
field. -/
inductive GlobVal
  | str (s : String)
  | list (l : List String)
deriving DecidableEq

/-- The frontmatter fields read by `parseRuleContent`
(`description`, `globs`, `alwaysApply`, `filesToApplyRule`, `trigger`,
`glob`); `none` models an absent key. -/
structure Frontmatter where
  description : Option String := none
  globs : Option GlobVal := none
  alwaysApply : Option Bool := none
  filesToApplyRule : Option String := none
  trigger : Option String := none
  glob : Option GlobVal := none
deriving DecidableEq

/-- Result of the external gray-matter parser on one unit: parsed data and
remaining content, or a thrown error. -/
inductive MatterResult
  | ok (data : Frontmatter) (content : String)
  | err

/-- Oracle for the external gray-matter library. -/
def Matter := String → MatterResult

/-- JS truthiness of an optional string field (`undefined` and `""` are
falsy). -/
def strTruthy : Option String → Bool
  | none => false
  | some s => !s.isEmpty

/-- JS truthiness of an optional glob field (arrays are truthy even when
empty; `""` is falsy). -/
def globTruthy : Option GlobVal → Bool
  | none => false
  | some (.str s) => !s.isEmpty
  | some (.list _) => true

/-- `Array.isArray(v) ? v : [v]` for a glob value. -/
def globAsList : Option GlobVal → List String
  | some (.str s) => [s]
  | some (.list l) => l
  | none => []

/-- `parseRuleContent` from src/parsers/index.ts, with the gray-matter call
abstracted as the oracle `m`. -/
def parseRuleContent (editor : EditorType) (name content filePath : String)
    (m : Matter) : Rule :=
  let config := EDITOR_CONFIGS editor
  -- YAML frontmatter block (guarded by config.hasYamlFrontmatter, with the
  -- catch branch keeping the defaults)
  let st :=
    if config.hasYamlFrontmatter then
      match m content with
      | .err => (content, "", ([] : List String), RuleType.always)
      | .ok fm body =>
        let description := if strTruthy fm.description then fm.description.getD "" else ""
        let (patterns, ruleType) :=
          if globTruthy fm.globs then (globAsList fm.globs, RuleType.autoAttached)
          else (([] : List String), RuleType.always)
        let ruleType := if fm.alwaysApply == some true then RuleType.always else ruleType
        -- editor-specific frontmatter switch
        let (patterns, ruleType) :=
          match editor with
          | .windsurf =>
            if strTruthy fm.filesToApplyRule then
              ([fm.filesToApplyRule.getD ""], RuleType.globPattern)
            else (patterns, ruleType)
          | .qoder =>
            let ruleType :=
              if strTruthy fm.trigger then
                match fm.trigger.getD "" with
                | "manual" => RuleType.manual
                | "model_decision" => RuleType.modelDecision
                | "always_on" => RuleType.always
                | "glob" => RuleType.globPattern
                | _ => ruleType
              else ruleType
            let patterns := if globTruthy fm.glob then globAsList fm.glob else patterns
            (patterns, ruleType)
          | _ => (patterns, ruleType)
        (body, description, patterns, ruleType)
    else (content, "", ([] : List String), RuleType.always)
  let parsedContent := st.1
  let description := st.2.1
  let patterns := st.2.2.1
  let ruleType := st.2.2.2
  -- editor-specific parsing logic on the (parsed) content
  let st2 :=
    match editor with
    | .cline =>
      let title := (splitLinesChars parsedContent.toList).findSome? clineTitleOfLine
      let description :=
        match title with
        | some t => if !t.isEmpty && description.isEmpty then t else description
        | none => description
      (description, patterns, ruleType)
    | .codex =>
      (if jsIncludes filePath "AGENTS.md" then "Project Agent Rules" else description,
        patterns, ruleType)
    | .claudeCode =>
      (if jsIncludes filePath "CLAUDE.md" then "Claude Code Instructions" else description,
        patterns, ruleType)
    | .qoder =>
      if jsIncludes content "*." || jsIncludes content "src/" then
        let pm := qoderPatternMatches content
        (description, if pm.isEmpty then patterns else pm, RuleType.specificFiles)
      else (description, patterns, ruleType)
    | _ => (description, patterns, ruleType)
  { name := name
    description := st2.1
    content := jsTrim parsedContent
    type := st2.2.2
    patterns := if 0 < st2.2.1.length then some st2.2.1 else none
    source := editor
    metadata := { filePath := filePath, size := some content.length } }

/-! ### Source scanner and detection -/

/-- A line matching the multiplex delimiter regex `^---- (.+?) ----$`
(multiline): returns the captured section name. -/
def delimLineName (l : List Char) : Option String :=
  if 11 ≤ l.length && charsPrefixOf "---- ".toList l
      && charsPrefixOf " ----".toList.reverse l.reverse then
    some ((l.drop 5).take (l.length - 10)).asString
  else none

/-- Collect `(name, content)` section pairs after the first delimiter line,
as produced by `content.split(/^---- (.+?) ----$/gm)` and the stride-2 loop
in `parseSingleFileWithSections`. -/
def gatherSections (name : String) (acc : List (List Char)) :
    List (List Char) → List (String × String)
  | [] => [(name, joinLines acc.reverse)]
  | l :: rest =>
    match delimLineName l with
    | some n2 => (name, joinLines acc.reverse) :: gatherSections n2 [] rest
    | none => gatherSections name (l :: acc) rest

/-- Skip the preamble before the first delimiter line, then gather the
section pairs. -/
def sectionPairs : List (List Char) → List (String × String)
  | [] => []
  | l :: rest =>
    match delimLineName l with
    | some n => gatherSections n [] rest
    | none => sectionPairs rest

/-- `DetectionResult` from src/types/index.ts. -/
structure DetectionResult where
  editor : EditorType
  rules : List Rule
  location : String
  ruleCount : Nat
deriving DecidableEq

/-- A filesystem node as probed by the scanner: a single file with its
content, or a directory whose `entries` model the `fast-glob` output
(matching file paths with their contents, in glob order) for the dialect's
extension patterns under that location. -/
inductive FsNode
  | file (content : String)
  | dir (entries : List (String × String))

/-- Filesystem oracle: `none` models a path for which `existsSync` is
false. Reads of existing files always succeed in this model (an I/O failure
in `parseRuleFile` only drops the unit and is not reached from a pure
filesystem). -/
def FS := String → Option FsNode

/-- `parseRuleFile` from src/parsers/index.ts with the file's content
supplied by the filesystem model. -/
def parseRuleFile (editor : EditorType) (filePath content : String)
    (m : Matter) : Option Rule :=
  some (parseRuleContent editor (fileNameOfPath filePath) content filePath m)

/-- `parseSingleFileWithSections` from src/parsers/index.ts. -/
def parseSingleFileWithSections (editor : EditorType) (filePath content : String)
    (m : Matter) : List Rule :=
  if editor == .codex || editor == .qwencoder then
    (sectionPairs (splitLinesChars content.toList)).filterMap fun p =>
      let sectionName := jsTrim p.1
      let sectionContent := jsTrim p.2
      if !sectionName.isEmpty && !sectionContent.isEmpty then
        let sourceDesc := if editor == .codex then "Codex CLI" else "QwenCoder"
        some { name := sectionName
               description := sectionName ++ " rules from " ++ sourceDesc
               content := sectionContent
               type := .always
               patterns := none
               source := editor
               metadata := { filePath := filePath, sectionName := some sectionName } }
      else none
  else
    let fileName := fileNameOfPath filePath
    [parseRuleContent editor fileName content filePath m]

/-- `parseRulesFromLocation` from src/parsers/index.ts. -/
def parseRulesFromLocation (editor : EditorType) (location : String)
    (fs : FS) (m : Matter) : List Rule :=
  match fs location with
  | none => []
  | some (.file content) =>
    if editor == .codex || editor == .claudeCode || editor == .qwencoder then
      parseSingleFileWithSections editor location content m
    else
      match parseRuleFile editor location content m with
      | some r => [r]
      | none => []
  | some (.dir entries) =>
    entries.filterMap fun e => parseRuleFile editor e.1 e.2 m

/-- The effect of `resolve(projectPath, location)` as a pure path key. -/
def resolvePath (projectPath location : String) : String :=
  projectPath ++ "/" ++ location

/-- One step of the location loops in `detectRulesForEditor`: accumulate
found rules and remember the first location that yielded any. -/
def detectStep (editor : EditorType) (projectPath : String) (fs : FS) (m : Matter)
    (st : List Rule × String) (location : String) : List Rule × String :=
  let fullPath := resolvePath projectPath location
  if (fs fullPath).isSome then
    let foundRules := parseRulesFromLocation editor fullPath fs m
    (st.1 ++ foundRules,
      if 0 < foundRules.length && st.2 == "" then fullPath else st.2)
  else st

/-- `detectRulesForEditor` from src/parsers/index.ts: probe primary then
legacy locations in declared order. -/
def detectRulesForEditor (editor : EditorType) (projectPath : String)
    (fs : FS) (m : Matter) : DetectionResult :=
  let config := EDITOR_CONFIGS editor
  let st := (config.locations ++ config.legacyLocations).foldl
    (detectStep editor projectPath fs m) ([], "")
  { editor := editor
    rules := st.1
    location := st.2
    ruleCount := st.1.length }

/-- `detectAllRules` from src/parsers/index.ts: keep editors with at least
one rule, sort by descending rule count (`(a, b) => b.ruleCount -
a.ruleCount`). -/
def detectAllRules (projectPath : String) (fs : FS) (m : Matter) :
    List DetectionResult :=
  ((allEditors.map fun e => detectRulesForEditor e projectPath fs m).filter
      fun d => decide (0 < d.ruleCount)).mergeSort
    fun a b => decide (b.ruleCount ≤ a.ruleCount)

/-- A concrete project state: a `.cursor/rules/` directory with one `.mdc`
file. -/
def sampleFS : FS := fun p =>
  if p = "./.cursor/rules/" then
    some (.dir [("./.cursor/rules/typescript.mdc", "Use tabs everywhere")])
  else if p = "./AGENTS.md" then
    some (.file "# Header\n\n---- ts ----\n\nBody text\n")
  else none

/-- A gray-matter oracle for contents with no frontmatter block: data is
empty and the content is returned unchanged. -/
def plainMatter : Matter := fun content => .ok {} content

/-! ### Conversion world model

File writes from the converters are modelled on an explicit world: an
association list of files, an abstract I/O-failure predicate (a path on
which `writeFileSync`/`fs.writeFile` throws) and a log of performed
writes. -/

/-- A heterogeneous YAML value appearing in a generated frontmatter
object. -/
inductive YVal
  | b (v : Bool)
  | s (v : String)
  | l (v : List String)
deriving DecidableEq

/-- Oracle for the external serializers: `matter.stringify(content, data)`
and (for the universal converters) `js-yaml`'s `dump`. Only the produced
text depends on it; none of the claims inspects that text. -/
def Stringify := String → List (String × YVal) → String

/-- Mutable filesystem state threaded through the converters. -/
structure World where
  files : List (String × String)
  writeFails : String → Bool
  writeLog : List String

/-- Replace-or-append an association-list entry. -/
def setFile : List (String × String) → String → String → List (String × String)
  | [], p, c => [(p, c)]
  | (q, d) :: rest, p, c =>
    if q == p then (p, c) :: rest else (q, d) :: setFile rest p c

/-- `writeFileSync`: `none` models a thrown I/O error. -/
def writeFileSync (w : World) (path content : String) : Option World :=
  if w.writeFails path then none
  else some { files := setFile w.files path content
              writeFails := w.writeFails
              writeLog := w.writeLog ++ [path] }

/-- `path.join` for the base paths used here (`join('.', f) = f`). -/
def pathJoin (a b : String) : String :=
  if a = "." then b else a ++ "/" ++ b

/-! ### Per-dialect content serializers (src/converters/index.ts) -/

/-- `rule.description || fallback` (JS truthiness of the optional
description, embedded as `""` when absent). -/
def descOr (rule : Rule) (fallback : String) : String :=
  if rule.description ≠ "" then rule.description else fallback

/-- The default description `Converted from ${rule.source}`. -/
def convertedFrom (rule : Rule) : String :=
  "Converted from " ++ editorName rule.source

/-- `mapRuleTypeToQoderTrigger` from src/converters/index.ts. -/
def mapRuleTypeToQoderTrigger : RuleType → String
  | .manual => "manual"
  | .modelDecision => "model_decision"
  | .agentRequested => "model_decision"
  | .always => "always_on"
  | .autoAttached => "glob"
  | .globPattern => "glob"
  | .specificFiles => "glob"

namespace Converters

/-- `convertToCursor` from src/converters/index.ts. -/
def convertToCursor (rule : Rule) (stringify : Stringify) : String :=
  let fm := [("description", YVal.s (descOr rule (convertedFrom rule)))]
  let fm := fm ++
    match rule.type with
    | .always => [("alwaysApply", YVal.b true)]
    | .autoAttached | .globPattern | .specificFiles =>
      match rule.patterns with
      | some ps => [("globs", YVal.l ps)]
      | none => []
    | _ => []
  stringify rule.content fm

/-- `convertToWindsurf` from src/converters/index.ts. -/
def convertToWindsurf (rule : Rule) (stringify : Stringify) : String :=
  let fm := [("description", YVal.s (descOr rule (convertedFrom rule)))]
  let fm := fm ++
    match rule.type with
    | .always => [("alwaysApply", YVal.b true)]
    | .autoAttached | .globPattern | .specificFiles =>
      match rule.patterns with
      | some ps => [("globs", YVal.s (String.intercalate "," ps))]
      | none => []
    | _ => []
  stringify rule.content fm

/-- `convertToCline` from src/converters/index.ts. -/
def convertToCline (rule : Rule) : String :=
  "# " ++ descOr rule rule.name ++ "\n\n"
    ++ "*Converted from " ++ editorName rule.source ++ " rules*\n\n"
    ++ rule.content

/-- `convertToVSCode` from src/converters/index.ts. -/
def convertToVSCode (rule : Rule) (stringify : Stringify) : String :=
  let fm := [("description", YVal.s (descOr rule (convertedFrom rule)))]
  let fm := fm ++
    match rule.patterns with
    | some ps => [("applyTo", YVal.s (String.intercalate "," ps))]
    | none => []
  stringify rule.content fm

/-- `convertToCodex` from src/converters/index.ts. -/
def convertToCodex (rule : Rule) : String :=
  "# " ++ descOr rule rule.name ++ "\n\n"
    ++ "*Converted from " ++ editorName rule.source ++ " rules*\n\n"
    ++ rule.content

/-- `convertToClaudeCode` from src/converters/index.ts. -/
def convertToClaudeCode (rule : Rule) : String :=
  "# " ++ descOr rule rule.name ++ "\n\n" ++ rule.content

/-- `convertToQoder` from src/converters/index.ts. -/
def convertToQoder (rule : Rule) (stringify : Stringify) : String :=
  let fm := [("trigger", YVal.s (mapRuleTypeToQoderTrigger rule.type)),
             ("description", YVal.s (descOr rule (convertedFrom rule)))]
  let fm := fm ++ (if rule.type = .always then [("alwaysApply", YVal.b true)] else [])
  let fm := fm ++
    (if rule.type = .autoAttached || rule.type = .globPattern
        || rule.type = .specificFiles then
      match rule.patterns with
      | some ps =>
        if 0 < ps.length then
          [("glob", YVal.s (if ps.length = 1 then ps.headD ""
            else String.intercalate "," ps))]
        else []
      | none => []
    else [])
  stringify rule.content fm

/-- `convertToTrae` from src/converters/index.ts. -/
def convertToTrae (rule : Rule) (stringify : Stringify) : String :=
  let fm := [("description", YVal.s (descOr rule (convertedFrom rule)))]
  let fm := fm ++ (if rule.type = .always then [("alwaysApply", YVal.b true)] else [])
  let fm := fm ++
    match rule.patterns with
    | some ps => [("globs", YVal.s (String.intercalate "," ps))]
    | none => []
  stringify rule.content fm

/-- `convertToQwenCoder` from src/converters/index.ts. -/
def convertToQwenCoder (rule : Rule) : String :=
  "# " ++ descOr rule rule.name ++ "\n\n"
    ++ "*Converted from " ++ editorName rule.source ++ " rules*\n\n"
    ++ rule.content

end Converters

/-- `convertRuleContent` from src/converters/index.ts. -/
def convertRuleContent (rule : Rule) (targetEditor : EditorType)
    (stringify : Stringify) : String :=
  match targetEditor with
  | .cursor => Converters.convertToCursor rule stringify
  | .windsurf => Converters.convertToWindsurf rule stringify
  | .cline => Converters.convertToCline rule
  | .vscode => Converters.convertToVSCode rule stringify
  | .codex => Converters.convertToCodex rule
  | .claudeCode => Converters.convertToClaudeCode rule
  | .qoder => Converters.convertToQoder rule stringify
  | .trae => Converters.convertToTrae rule stringify
  | .qwencoder => Converters.convertToQwenCoder rule

/-- `generateFileName` from src/converters/index.ts: lower-case the rule
name, replace every single character outside `[a-z0-9]` with a hyphen
(regex `/[^a-z0-9]/g`), append `config.fileFormats[0]`. -/
def generateFileName (rule : Rule) (targetEditor : EditorType) : String :=
  let config := EDITOR_CONFIGS targetEditor
  let baseName := (replaceEachNonAlnum (jsToLower rule.name).toList).asString
  baseName ++ config.fileFormats.headD ""

/-- The shared-file content assembled by `convertToSingleFile`: the
per-editor header followed by one section per rule, separated by blank
lines. -/
def singleFileHeader (targetEditor : EditorType) : String :=
  match targetEditor with
  | .codex => "# Project Agent Rules\n\n*Converted rules from multiple sources*\n\n"
  | .claudeCode =>
    "# CLAUDE.md\n\nThis file provides guidance to Claude Code when working with code in this repository.\n\n"
  | .qwencoder => "# Project Context Rules\n\n*AI coding assistant guidance*\n\n"
  | _ => ""

/-- One section delimiter line pair inside the shared file. -/
def singleFileDelim (targetEditor : EditorType) (rule : Rule) : String :=
  if targetEditor = .codex || targetEditor = .qwencoder then
    "---- " ++ rule.name ++ " ----\n\n"
  else
    "## " ++ descOr rule rule.name ++ "\n\n"

/-- The rule loop of `convertToSingleFile` (spacing only between
sections). -/
def singleFileSections (targetEditor : EditorType) : List Rule → String
  | [] => ""
  | [r] => singleFileDelim targetEditor r ++ r.content
  | r :: rest =>
    singleFileDelim targetEditor r ++ r.content ++ "\n\n"
      ++ singleFileSections targetEditor rest

/-- Full content written by `convertToSingleFile`. -/
def singleFileContent (rules : List Rule) (targetEditor : EditorType) : String :=
  singleFileHeader targetEditor ++ singleFileSections targetEditor rules

/-- `convertToSingleFile` from src/converters/index.ts: build the whole
shared file in memory and write it once. -/
def convertToSingleFile (rules : List Rule) (targetEditor : EditorType)
    (basePath : String) (w : World) : World × Except String (List String) :=
  let config := EDITOR_CONFIGS targetEditor
  let fileName := config.locations.headD ""
  let filePath := pathJoin basePath (if fileName = "" then "rules.md" else fileName)
  match writeFileSync w filePath (singleFileContent rules targetEditor) with
  | some w2 => (w2, .ok [filePath])
  | none => (w, .error ("EACCES: " ++ filePath))

/-- The per-rule write loop of `convertToEditor` (multi-file dialects): a
failing write throws `Failed to convert rule ${name}: …`, aborting this
target but keeping earlier writes. -/
def convertFilesLoop (targetEditor : EditorType) (outputDir : String)
    (stringify : Stringify) : List Rule → World → World × Except String (List String)
  | [], w => (w, .ok [])
  | r :: rest, w =>
    let convertedContent := convertRuleContent r targetEditor stringify
    let filePath := pathJoin outputDir (generateFileName r targetEditor)
    match writeFileSync w filePath convertedContent with
    | none => (w, .error ("Failed to convert rule " ++ r.name ++ ": EACCES: " ++ filePath))
    | some w2 =>
      match convertFilesLoop targetEditor outputDir stringify rest w2 with
      | (w3, .ok files) => (w3, .ok (filePath :: files))
      | (w3, .error e) => (w3, .error e)

/-- `convertToEditor` from src/converters/index.ts (`mkdirSync` is modelled
as always succeeding). -/
def convertToEditor (rules : List Rule) (targetEditor : EditorType)
    (basePath : String) (stringify : Stringify) (w : World) :
    World × Except String (List String) :=
  if targetEditor = .codex || targetEditor = .claudeCode
      || targetEditor = .qwencoder then
    convertToSingleFile rules targetEditor basePath w
  else
    let config := EDITOR_CONFIGS targetEditor
    let hd := config.locations.headD ""
    let outputDir := pathJoin basePath (if hd = "" then "." else hd)
    convertFilesLoop targetEditor outputDir stringify rules w

/-- `ConversionResult` from src/types/index.ts. -/
structure ConversionResult where
  success : Bool
  converted : Nat
  skipped : Nat
  errors : List String
  outputFiles : List String
deriving DecidableEq

/-- The target loop of `convertRules`. -/
def convertRulesLoop (sourceRules : List Rule) (outputPath : String)
    (stringify : Stringify) : List String → World → ConversionResult →
    World × ConversionResult
  | [], w, acc => (w, acc)
  | editorName0 :: rest, w, acc =>
    match getEditorByDisplayName editorName0 with
    | none =>
      convertRulesLoop sourceRules outputPath stringify rest w
        { acc with errors := acc.errors ++ ["Unknown editor: " ++ editorName0] }
    | some editorType =>
      match convertToEditor sourceRules editorType outputPath stringify w with
      | (w2, .ok files) =>
        convertRulesLoop sourceRules outputPath stringify rest w2
          { acc with outputFiles := acc.outputFiles ++ files,
                     converted := acc.converted + files.length }
      | (w2, .error e) =>
        convertRulesLoop sourceRules outputPath stringify rest w2
          { acc with
              errors := acc.errors ++ ["Failed to convert to " ++ editorName0 ++ ": " ++ e],
              success := false }

/-- `convertRules` from src/converters/index.ts. -/
def convertRules (sourceRules : List Rule) (targetEditors : List String)
    (outputPath : String) (stringify : Stringify) (w : World) :
    World × ConversionResult :=
  convertRulesLoop sourceRules outputPath stringify targetEditors w
    { success := true, converted := 0, skipped := 0, errors := [], outputFiles := [] }

/-- The trimmed section names of a multiplexed shared file, as recovered by
the scanner's splitter. -/
def sectionNamesOf (content : String) : List String :=
  (sectionPairs (splitLinesChars content.toList)).map fun p => jsTrim p.1

/-! ### Universal-rule converters (src/converters/universal.ts)

Only the converters a claim cites are embedded: `convertToCursor` (file
name generation with run-collapsing regex) and `convertToClaudeCode`
(pattern-hint handling). -/

/-- `UniversalRuleType` from src/types/index.ts. -/
inductive UniversalRuleType
  | always
  | pattern
  | manual
  | aiDecision
deriving DecidableEq

/-- `UniversalRule` from src/types/index.ts, restricted to the fields the
embedded converters read (`formatting`, `metadata` and `targetEditors` are
never consulted by them). -/
structure UniversalRule where
  id : String
  name : String
  type : UniversalRuleType
  content : String
  patterns : Option (List String)
  context : Option String
  description : Option String
deriving DecidableEq

namespace Universal

/-- The file name computed by `convertToCursor` in
src/converters/universal.ts: `` `${rule.name.toLowerCase().replace(/[^a-z0-9]+/g, '-')}.mdc` ``. -/
def cursorFileName (name : String) : String :=
  (replaceRunsNonAlnum false (jsToLower name).toList).asString ++ ".mdc"

/-- `convertToCursor` from src/converters/universal.ts: returns the
`(filepath, written content)` pair; `dump` is the js-yaml oracle. -/
def convertToCursor (rule : UniversalRule)
    (dump : List (String × YVal) → String) : String × String :=
  let filepath := ".cursor/rules/" ++ cursorFileName rule.name
  let fm := [("description", YVal.s (if strTruthy rule.description
    then rule.description.getD "" else rule.name))]
  let fm := fm ++
    (if rule.type = .always then [("alwaysApply", YVal.b true)]
     else if rule.type = .pattern && rule.patterns.isSome then
       [("globs", YVal.l (rule.patterns.getD []))]
     else [])
  (filepath, "---\n" ++ dump fm ++ "---\n\n" ++ rule.content)

/-- `convertToClaudeCode` from src/converters/universal.ts: `existing` is
the current CLAUDE.md content (`none` when reading throws and the default
header is used). Returns the full content written back and the reported
file list. The locally-built `content` — pattern hint, context note and
heading — is computed exactly as in the source and then, as in the source,
never used: the write appends `rule.content`. -/
def convertToClaudeCode (rule : UniversalRule) (existing : Option String) :
    String × List String :=
  let content := rule.content
  let content :=
    if rule.type = .pattern && rule.patterns.isSome then
      "When working with files matching: "
        ++ String.intercalate ", " (rule.patterns.getD []) ++ "\n\n" ++ content
    else content
  let content :=
    if rule.type = .aiDecision && strTruthy rule.context then
      "Context: " ++ rule.context.getD "" ++ "\n\n" ++ content
    else content
  let content :=
    if !jsStartsWith content "#" then "# " ++ rule.name ++ "\n\n" ++ content
    else content
  let existingContent := existing.getD "# AI Assistant Guidelines\n\n"
  let written := existingContent ++ "\n## " ++ rule.name ++ "\n\n" ++ rule.content ++ "\n"
  (written, ["CLAUDE.md"])

end Universal

/-! ### Spec-side definitions and concrete inputs for the claims -/

/-- The spec's file-name rule for single-rule-per-file dialects, following
its words: lower-case the rule name, replace every maximal run of
characters outside `[a-z0-9]` with a single hyphen, append the dialect's
primary extension. -/
def specSingleRuleFileName (rule : Rule) (targetEditor : EditorType) : String :=
  (replaceRunsNonAlnum false (jsToLower rule.name).toList).asString
    ++ (EDITOR_CONFIGS targetEditor).fileFormats.headD ""

/-- No two adjacent characters outside `[a-z0-9]` — the condition under
which per-character and per-run hyphen replacement agree. -/
def noAdjacentNonAlnum : List Char → Bool
  | [] => true
  | [_] => true
  | a :: b :: rest =>
    (isAlnumLower a || isAlnumLower b) && noAdjacentNonAlnum (b :: rest)

/-- A gray-matter oracle returning a fixed parse for every input. -/
def constMatter (fm : Frontmatter) (body : String) : Matter := fun _ => .ok fm body

/-- Frontmatter with a glob list and an explicit `alwaysApply: true`. -/
def fmGlobsAlways : Frontmatter :=
  { globs := some (.list ["*.ts"]), alwaysApply := some true }

/-- Frontmatter whose glob field is the comma-separated string form. -/
def fmGlobsStr : Frontmatter := { globs := some (.str "*.ts, *.tsx") }

/-- Frontmatter whose glob field is the list form. -/
def fmGlobsList : Frontmatter := { globs := some (.list ["*.ts", "*.tsx"]) }

/-- Frontmatter with only a glob list (no always-apply flag). -/
def fmGlobsOnly : Frontmatter := { globs := some (.list ["*.ts", "*.tsx"]) }

/-- A rule whose name contains a run of two non-alphanumeric characters. -/
def doubleSpaceRule : Rule :=
  { name := "My  Rule", description := "", content := "Use tabs.",
    type := .always, patterns := none, source := .cursor,
    metadata := { filePath := "p" } }

/-- A pattern-scoped universal rule, the failing input for the Claude Code
pattern-hint claim. -/
def patternUniversalRule : UniversalRule :=
  { id := "1", name := "ts-layout", type := .pattern,
    content := "Use strict imports.", patterns := some ["src/**/*.ts"],
    context := none, description := none }

/-- The same pattern-scoped rule in the detection `Rule` form. -/
def patternRule : Rule :=
  { name := "ts-layout", description := "", content := "Use strict imports.",
    type := .globPattern, patterns := some ["src/**/*.ts"], source := .cursor,
    metadata := { filePath := "p" } }

/-- A second sample rule for multi-rule conversions. -/
def namingRule : Rule :=
  { name := "naming", description := "", content := "Use camelCase.",
    type := .always, patterns := none, source := .cursor,
    metadata := { filePath := "q" } }

/-- A world with no files and no failing paths. -/
def emptyWorld : World :=
  { files := [], writeFails := fun _ => false, writeLog := [] }

/-- A world whose AGENTS.md path always fails to write. -/
def agentsFailWorld : World :=
  { files := [], writeFails := fun p => p == "AGENTS.md", writeLog := [] }

/-- A trivial serializer oracle. -/
def sampleStringify : Stringify := fun content _ => content

/-! ### Theorems -/

theorem getEditorByDisplayName_mem {n : String} {e : EditorType}
    (h : getEditorByDisplayName n = some e) : n ∈ getDisplayNamesForEditor e := by
  have hp := List.find?_some h
  simp only [Bool.or_eq_true, beq_iff_eq, List.contains_eq_any_beq, List.any_eq_true,
    beq_iff_eq] at hp
  rcases hp with hp | ⟨x, hx, rfl⟩
  · exact hp ▸ List.mem_cons_self _ _
  · exact List.mem_cons_of_mem _ hx

/-- C8: display-name round trip — every display name or alias of an editor
resolves back to that editor via `getEditorByDisplayName`, and a string that
is no editor's display name or alias resolves to `none`. -/
theorem C8_display_name_round_trip :
    (∀ (e : EditorType) (n : String),
        n ∈ getDisplayNamesForEditor e → getEditorByDisplayName n = some e)
    ∧ (∀ n : String,
        (∀ e : EditorType, n ∉ getDisplayNamesForEditor e) →
          getEditorByDisplayName n = none) := by
  constructor
  · intro e n hn
    cases e <;> simp [getDisplayNamesForEditor, EDITOR_CONFIGS] at hn <;>
      first
        | (subst hn; decide)
        | (rcases hn with rfl | rfl | rfl | rfl <;> decide)
  · intro n h
    cases hq : getEditorByDisplayName n with
    | none => rfl
    | some e => exact absurd (getEditorByDisplayName_mem hq) (h e)

/-- Witness for C8 at concrete inputs: the alias "OpenCode" resolves back to
the codex editor, and "Some Unknown Editor" (no editor's name) resolves to
`none`. -/
theorem C8_display_name_round_trip_witness :
    ("OpenCode" ∈ getDisplayNamesForEditor .codex ∧
      getEditorByDisplayName "OpenCode" = some .codex)
    ∧ ((∀ e : EditorType, "Some Unknown Editor" ∉ getDisplayNamesForEditor e) ∧
      getEditorByDisplayName "Some Unknown Editor" = none) :=
  ⟨⟨by decide, C8_display_name_round_trip.1 .codex "OpenCode" (by decide)⟩,
    ⟨by decide, C8_display_name_round_trip.2 "Some Unknown Editor" (by decide)⟩⟩

/-- C10: every `DetectionResult` built by `detectRulesForEditor` satisfies
`ruleCount = rules.length`, for every editor, project root and filesystem
state (including the missing-location case, where both are zero). -/
theorem C10_ruleCount_eq_length (e : EditorType) (projectPath : String)
    (fs : FS) (m : Matter) :
    (detectRulesForEditor e projectPath fs m).ruleCount
      = (detectRulesForEditor e projectPath fs m).rules.length := rfl

theorem detectRulesForEditor_editor (e : EditorType) (projectPath : String)
    (fs : FS) (m : Matter) : (detectRulesForEditor e projectPath fs m).editor = e := rfl

theorem mem_allEditors (e : EditorType) : e ∈ allEditors := by
  cases e <;> decide

/-- C1: `detectAllRules` returns exactly one `DetectionResult` per dialect
that has at least one discovered rule (zero-rule dialects are omitted), and
the returned list is sorted by descending rule count. -/
theorem C1_detectAllRules_spec (projectPath : String) (fs : FS) (m : Matter) :
    (detectAllRules projectPath fs m).Pairwise
        (fun a b => b.ruleCount ≤ a.ruleCount)
    ∧ (∀ d ∈ detectAllRules projectPath fs m, 0 < d.ruleCount)
    ∧ (∀ e : EditorType, 0 < (detectRulesForEditor e projectPath fs m).ruleCount →
        detectRulesForEditor e projectPath fs m ∈ detectAllRules projectPath fs m)
    ∧ (∀ e : EditorType,
        (detectAllRules projectPath fs m).countP (fun d => d.editor == e)
          = if 0 < (detectRulesForEditor e projectPath fs m).ruleCount then 1 else 0) := by
  refine ⟨?_, ?_, ?_, ?_⟩
  · have h := @List.sorted_mergeSort DetectionResult
      (fun a b => decide (b.ruleCount ≤ a.ruleCount))
      (fun a b c hab hbc => by
        simp only [decide_eq_true_eq] at hab hbc ⊢; omega)
      (fun a b => by
        simp only [Bool.or_eq_true, decide_eq_true_eq]; omega)
      ((allEditors.map fun e => detectRulesForEditor e projectPath fs m).filter
        fun d => decide (0 < d.ruleCount))
    exact h.imp fun hab => by simpa using hab
  · intro d hd
    rw [detectAllRules, List.mem_mergeSort] at hd
    simpa using List.of_mem_filter hd
  · intro e he
    rw [detectAllRules, List.mem_mergeSort]
    exact List.mem_filter.mpr
      ⟨List.mem_map.mpr ⟨e, mem_allEditors e, rfl⟩, by simpa using he⟩
  · intro e
    rw [detectAllRules,
      ((allEditors.map fun x => detectRulesForEditor x projectPath fs m).filter
          fun d => decide (0 < d.ruleCount)).mergeSort_perm
        (fun a b => decide (b.ruleCount ≤ a.ruleCount)) |>.countP_eq,
      List.countP_filter, List.countP_map]
    cases e <;>
      simp [allEditors, List.countP_cons, Function.comp,
        detectRulesForEditor_editor]

/-- Witness for C1: in the sample project both the Cursor dialect (one
`.mdc` file) and the multiplexing Codex dialect (one `---- ts ----` section
in AGENTS.md) have one rule each, and their `DetectionResult`s occur in
`detectAllRules`. -/
theorem C1_detectAllRules_spec_witness :
    (0 < (detectRulesForEditor .cursor "." sampleFS plainMatter).ruleCount
      ∧ detectRulesForEditor .cursor "." sampleFS plainMatter
          ∈ detectAllRules "." sampleFS plainMatter)
    ∧ (0 < (detectRulesForEditor .codex "." sampleFS plainMatter).ruleCount
      ∧ detectRulesForEditor .codex "." sampleFS plainMatter
          ∈ detectAllRules "." sampleFS plainMatter) :=
  ⟨⟨by decide, (C1_detectAllRules_spec "." sampleFS plainMatter).2.2.1 .cursor (by decide)⟩,
    ⟨by decide, (C1_detectAllRules_spec "." sampleFS plainMatter).2.2.1 .codex (by decide)⟩⟩

/-- C2 counterexample: for the Cursor dialect, a frontmatter with the
non-empty glob list `["*.ts"]` and `alwaysApply: true` (no manual or
context-decided signal) parses to activation type `always`, not the
pattern-matched type `auto-attached`: in `parseRuleContent` the
always-apply flag is applied after — and overrides — the glob-list
signal. -/
theorem C2_globs_alwaysApply_counterexample :
    (parseRuleContent .cursor "typescript" "raw content" "typescript.mdc"
        (constMatter fmGlobsAlways "Use strict TypeScript.")).type = .always
    ∧ RuleType.always ≠ RuleType.autoAttached :=
  ⟨by decide, by decide⟩

/-- C2 (amended): for every frontmatter dialect without its own trigger
vocabulary (cursor, windsurf, vscode, trae), when the frontmatter carries a
truthy glob field and no dialect-specific pattern field, the activation
type is pattern-matched (`auto-attached`) unless the frontmatter also sets
`alwaysApply: true`, in which case the always-apply flag wins. -/
theorem C2_amended_globs_activation (e : EditorType)
    (he : e = .cursor ∨ e = .windsurf ∨ e = .vscode ∨ e = .trae)
    (name content filePath : String) (m : Matter) (fm : Frontmatter)
    (body : String) (hm : m content = .ok fm body)
    (hg : globTruthy fm.globs = true)
    (hw : strTruthy fm.filesToApplyRule = false) :
    (parseRuleContent e name content filePath m).type
      = if fm.alwaysApply = some true then .always else .autoAttached := by
  rcases he with rfl | rfl | rfl | rfl <;>
    simp [parseRuleContent, EDITOR_CONFIGS, hm, hg, hw, beq_iff_eq]

/-- Witness for the amended C2 at a concrete frontmatter (glob list plus
`alwaysApply: true`), where the always flag wins. -/
theorem C2_amended_globs_activation_witness :
    constMatter fmGlobsAlways "body" "c" = .ok fmGlobsAlways "body"
    ∧ globTruthy fmGlobsAlways.globs = true
    ∧ strTruthy fmGlobsAlways.filesToApplyRule = false
    ∧ (parseRuleContent .cursor "r" "c" "f.mdc" (constMatter fmGlobsAlways "body")).type
        = if fmGlobsAlways.alwaysApply = some true then .always else .autoAttached :=
  ⟨rfl, by decide, by decide,
    C2_amended_globs_activation .cursor (Or.inl rfl) "r" "c" "f.mdc"
      (constMatter fmGlobsAlways "body") fmGlobsAlways "body" rfl
      (by decide) (by decide)⟩

/-- C3 counterexample: the comma-separated string form `"*.ts, *.tsx"` of
the glob field parses to the one-element patterns list `["*.ts, *.tsx"]`,
while the list form parses to `["*.ts", "*.tsx"]` — the two are not
identical, because `parseRuleContent` never splits comma-separated
strings. -/
theorem C3_comma_string_counterexample :
    (parseRuleContent .cursor "r" "c" "f.mdc" (constMatter fmGlobsStr "body")).patterns
      = some ["*.ts, *.tsx"]
    ∧ (parseRuleContent .cursor "r" "c" "f.mdc" (constMatter fmGlobsList "body")).patterns
      = some ["*.ts", "*.tsx"]
    ∧ (parseRuleContent .cursor "r" "c" "f.mdc" (constMatter fmGlobsStr "body")).patterns
      ≠ (parseRuleContent .cursor "r" "c" "f.mdc" (constMatter fmGlobsList "body")).patterns :=
  ⟨by decide, by decide, by decide⟩

/-- C3 (amended): a string-valued glob field `s` is wrapped unchanged as
the one-element list `[s]` (commas are not split), while a non-empty
list-valued field is taken as is — so the string form and the list form of
the same comma-separated patterns yield different `patterns` lists. -/
theorem C3_amended_no_comma_split (name content filePath : String) (m : Matter)
    (fm : Frontmatter) (body : String) (hm : m content = .ok fm body) :
    (∀ s : String, fm.globs = some (.str s) → s ≠ "" →
      (parseRuleContent .cursor name content filePath m).patterns = some [s])
    ∧ (∀ l : List String, fm.globs = some (.list l) → l ≠ [] →
      (parseRuleContent .cursor name content filePath m).patterns = some l) := by
  constructor
  · intro s hgl hs
    have hne : s.isEmpty = false := by
      cases h : s.isEmpty
      · rfl
      · exact absurd ((String.isEmpty_iff s).mp h) hs
    simp [parseRuleContent, EDITOR_CONFIGS, hm, hgl, globTruthy, globAsList, hne]
  · intro l hgl hl
    have hpos : 0 < l.length := List.length_pos.mpr hl
    simp [parseRuleContent, EDITOR_CONFIGS, hm, hgl, globTruthy, globAsList, hpos]

/-- Witness for the amended C3 at the concrete comma-separated string
frontmatter. -/
theorem C3_amended_no_comma_split_witness :
    constMatter fmGlobsStr "body" "c" = .ok fmGlobsStr "body"
    ∧ fmGlobsStr.globs = some (.str "*.ts, *.tsx")
    ∧ "*.ts, *.tsx" ≠ ""
    ∧ (parseRuleContent .cursor "r" "c" "f.mdc" (constMatter fmGlobsStr "body")).patterns
        = some ["*.ts, *.tsx"] :=
  ⟨rfl, rfl, by decide,
    (C3_amended_no_comma_split "r" "c" "f.mdc" (constMatter fmGlobsStr "body")
        fmGlobsStr "body" rfl).1 "*.ts, *.tsx" rfl (by decide)⟩

theorem replaceRuns_true_cons_of_alnum (c : Char) (rest : List Char)
    (h : isAlnumLower c = true) :
    replaceRunsNonAlnum true (c :: rest) = replaceRunsNonAlnum false (c :: rest) := by
  simp [replaceRunsNonAlnum, h]

/-- On names without two adjacent characters outside `[a-z0-9]`, replacing
runs and replacing single characters coincide. -/
theorem replaceRuns_eq_replaceEach :
    ∀ l : List Char, noAdjacentNonAlnum l = true →
      replaceRunsNonAlnum false l = replaceEachNonAlnum l := by
  intro l
  induction l with
  | nil => intro _; rfl
  | cons c rest ih =>
    intro h
    cases hc : isAlnumLower c with
    | true =>
      have hrest : noAdjacentNonAlnum rest = true := by
        cases rest with
        | nil => rfl
        | cons d r2 => exact (Bool.and_eq_true_iff.mp h).2
      rw [show replaceRunsNonAlnum false (c :: rest)
          = c :: replaceRunsNonAlnum false rest by
        rw [replaceRunsNonAlnum, hc]; simp]
      rw [ih hrest]
      simp [replaceEachNonAlnum, hc]
    | false =>
      cases rest with
      | nil => simp [replaceRunsNonAlnum, replaceEachNonAlnum, hc]
      | cons d r2 =>
        have hpair := Bool.and_eq_true_iff.mp h
        have hd : isAlnumLower d = true := by
          rcases Bool.or_eq_true_iff.mp hpair.1 with h1 | h2
          · rw [hc] at h1; cases h1
          · exact h2
        have ht := ih hpair.2
        rw [show replaceRunsNonAlnum false (c :: d :: r2)
            = '-' :: replaceRunsNonAlnum true (d :: r2) by
          rw [replaceRunsNonAlnum, hc]; simp]
        rw [replaceRuns_true_cons_of_alnum d r2 hd, ht]
        simp [replaceEachNonAlnum, hc]

/-- C4 counterexample: the rule named "My  Rule" (two adjacent spaces)
generates the file name `my--rule.mdc` with two consecutive hyphens, not
the spec's `my-rule.mdc`: `generateFileName` replaces every single
character outside `[a-z0-9]` (regex without `+`), not each maximal run. -/
theorem C4_fileName_counterexample :
    generateFileName doubleSpaceRule .cursor = "my--rule.mdc"
    ∧ specSingleRuleFileName doubleSpaceRule .cursor = "my-rule.mdc"
    ∧ generateFileName doubleSpaceRule .cursor
        ≠ specSingleRuleFileName doubleSpaceRule .cursor :=
  ⟨by decide, by decide, by decide⟩

/-- C4 (amended): in the `convertRules` path, the output file name is the
rule name lower-cased with every single character outside `[a-z0-9]`
replaced by one hyphen (runs are not collapsed, so adjacent such characters
yield consecutive hyphens), followed by the dialect's primary extension;
it agrees with the spec's run-collapsing rule exactly on names whose
lowercased form has no two adjacent such characters. The add-command path
(`convertToCursor` in src/converters/universal.ts) does collapse runs as
the spec states. -/
theorem C4_amended_fileName (r : Rule) (e : EditorType) :
    generateFileName r e
      = ((jsToLower r.name).toList.map fun c =>
            if isAlnumLower c then c else '-').asString
          ++ (EDITOR_CONFIGS e).fileFormats.headD ""
    ∧ (noAdjacentNonAlnum (jsToLower r.name).toList = true →
        generateFileName r e = specSingleRuleFileName r e)
    ∧ Universal.cursorFileName r.name = specSingleRuleFileName r .cursor := by
  refine ⟨rfl, ?_, rfl⟩
  intro hchain
  show (replaceEachNonAlnum (jsToLower r.name).toList).asString
      ++ (EDITOR_CONFIGS e).fileFormats.headD ""
    = (replaceRunsNonAlnum false (jsToLower r.name).toList).asString
      ++ (EDITOR_CONFIGS e).fileFormats.headD ""
  rw [replaceRuns_eq_replaceEach _ hchain]

/-- Witness for the amended C4 at the concrete all-alphanumeric rule name
"naming". -/
theorem C4_amended_fileName_witness :
    noAdjacentNonAlnum (jsToLower namingRule.name).toList = true
    ∧ generateFileName namingRule .cursor = specSingleRuleFileName namingRule .cursor :=
  ⟨by decide, (C4_amended_fileName namingRule .cursor).2.1 (by decide)⟩

/-- C5: evaluating the Claude Code converters at a pattern-scoped rule
shows the pattern hint is NOT folded into the written body. In
`convertToClaudeCode` (src/converters/universal.ts) the hint-prefixed
`content` is computed and then discarded — the write appends the raw
`rule.content` — and `convertToSingleFile` (src/converters/index.ts) never
computes a hint at all, so neither output contains the hint line the spec
requires. -/
theorem C5_pattern_hint_dropped :
    (Universal.convertToClaudeCode patternUniversalRule none).1
      = "# AI Assistant Guidelines\n\n\n## ts-layout\n\nUse strict imports.\n"
    ∧ jsIncludes (Universal.convertToClaudeCode patternUniversalRule none).1
        "When working with files matching" = false
    ∧ jsIncludes (singleFileContent [patternRule] .claudeCode)
        "When working with files matching" = false
    ∧ jsIncludes (singleFileContent [patternRule] .claudeCode) "src/**/*.ts" = false :=
  ⟨by decide, by decide, by decide, by decide⟩

/-- C6: `convertRules` processes every requested target. An unrecognized
target name appends a non-fatal `Unknown editor` entry and is skipped
(world and success flag untouched, remaining targets processed); a
serializer failure records the error message and forces `success := false`
while the remaining targets are still processed; and once false the
success flag stays false to the end. -/
theorem C6_convertRules_error_handling :
    (∀ (rules : List Rule) (outputPath : String) (st : Stringify)
        (name : String) (rest : List String) (w : World) (acc : ConversionResult),
      getEditorByDisplayName name = none →
      convertRulesLoop rules outputPath st (name :: rest) w acc
        = convertRulesLoop rules outputPath st rest w
            { acc with errors := acc.errors ++ ["Unknown editor: " ++ name] })
    ∧ (∀ (rules : List Rule) (outputPath : String) (st : Stringify)
        (name : String) (rest : List String) (w : World) (acc : ConversionResult)
        (editorType : EditorType) (w2 : World) (e : String),
      getEditorByDisplayName name = some editorType →
      convertToEditor rules editorType outputPath st w = (w2, .error e) →
      convertRulesLoop rules outputPath st (name :: rest) w acc
        = convertRulesLoop rules outputPath st rest w2
            { acc with
                errors := acc.errors ++ ["Failed to convert to " ++ name ++ ": " ++ e],
                success := false })
    ∧ (∀ (rules : List Rule) (outputPath : String) (st : Stringify)
        (targets : List String) (w : World) (acc : ConversionResult),
      acc.success = false →
      (convertRulesLoop rules outputPath st targets w acc).2.success = false) := by
  refine ⟨?_, ?_, ?_⟩
  · intro rules outputPath st name rest w acc h
    simp only [convertRulesLoop, h]
  · intro rules outputPath st name rest w acc editorType w2 e h1 h2
    simp only [convertRulesLoop, h1, h2]
  · intro rules outputPath st targets
    induction targets with
    | nil => intro w acc h; exact h
    | cons name rest ih =>
      intro w acc h
      cases hE : getEditorByDisplayName name with
      | none =>
        simp only [convertRulesLoop, hE]
        exact ih w _ h
      | some editorType =>
        cases hC : convertToEditor rules editorType outputPath st w with
        | mk w2 r =>
          cases r with
          | ok files =>
            simp only [convertRulesLoop, hE, hC]
            exact ih w2 _ h
          | error e =>
            simp only [convertRulesLoop, hE, hC]
            exact ih w2 _ rfl

/-- Witness for C6 at concrete inputs: the unknown target "Not An Editor"
is skipped with an error entry, and a failing AGENTS.md write for target
"Codex CLI" records a failure entry and clears the success flag. -/
theorem C6_convertRules_error_handling_witness :
    getEditorByDisplayName "Not An Editor" = none
    ∧ (convertRulesLoop [] "." sampleStringify ["Not An Editor"] emptyWorld
          { success := true, converted := 0, skipped := 0, errors := [], outputFiles := [] }
        = convertRulesLoop [] "." sampleStringify [] emptyWorld
            { success := true, converted := 0, skipped := 0,
              errors := ["Unknown editor: " ++ "Not An Editor"], outputFiles := [] })
    ∧ getEditorByDisplayName "Codex CLI" = some .codex
    ∧ convertToEditor [] .codex "." sampleStringify agentsFailWorld
        = (agentsFailWorld, .error ("EACCES: " ++ "AGENTS.md"))
    ∧ (convertRulesLoop [] "." sampleStringify ["Codex CLI"] agentsFailWorld
          { success := true, converted := 0, skipped := 0, errors := [], outputFiles := [] }
        = convertRulesLoop [] "." sampleStringify [] agentsFailWorld
            { success := false, converted := 0, skipped := 0,
              errors := ["Failed to convert to " ++ "Codex CLI" ++ ": "
                ++ ("EACCES: " ++ "AGENTS.md")], outputFiles := [] })
    ∧ (convertRulesLoop [] "." sampleStringify ["Codex CLI"] agentsFailWorld
          { success := false, converted := 0, skipped := 0, errors := [],
            outputFiles := [] }).2.success = false := by
  refine ⟨by decide, ?_, by decide, rfl, ?_, ?_⟩
  · exact C6_convertRules_error_handling.1 [] "." sampleStringify "Not An Editor" []
      emptyWorld _ (by decide)
  · exact C6_convertRules_error_handling.2.1 [] "." sampleStringify "Codex CLI" []
      agentsFailWorld _ .codex agentsFailWorld ("EACCES: " ++ "AGENTS.md")
      (by decide) rfl
  · exact C6_convertRules_error_handling.2.2 [] "." sampleStringify ["Codex CLI"]
      agentsFailWorld _ rfl

theorem convertRulesLoop_converted_eq_files :
    ∀ (targets : List String) (rules : List Rule) (outputPath : String)
      (st : Stringify) (w : World) (acc : ConversionResult),
      (convertRulesLoop rules outputPath st targets w acc).2.converted
          + acc.outputFiles.length
        = (convertRulesLoop rules outputPath st targets w acc).2.outputFiles.length
          + acc.converted := by
  intro targets
  induction targets with
  | nil => intro rules outputPath st w acc; simp only [convertRulesLoop]; omega
  | cons name rest ih =>
    intro rules outputPath st w acc
    cases hE : getEditorByDisplayName name with
    | none =>
      simp only [convertRulesLoop, hE]
      exact ih rules outputPath st w _
    | some editorType =>
      cases hC : convertToEditor rules editorType outputPath st w with
      | mk w2 r =>
        cases r with
        | ok files =>
          simp only [convertRulesLoop, hE, hC]
          have h2 := ih rules outputPath st w2
            { acc with outputFiles := acc.outputFiles ++ files,
                       converted := acc.converted + files.length }
          simp only [List.length_append] at h2 ⊢
          omega
        | error e =>
          simp only [convertRulesLoop, hE, hC]
          exact ih rules outputPath st w2 _

/-- C9 counterexample: converting the two-rule list `[patternRule,
namingRule]` to the multiplexing target "Codex CLI" without any error
yields `converted = 1` (one shared file written), not `2`. -/
theorem C9_converted_counterexample :
    (convertRules [patternRule, namingRule] ["Codex CLI"] "."
        sampleStringify emptyWorld).2.converted = 1
    ∧ [patternRule, namingRule].length = 2
    ∧ (1 : Nat) ≠ 2 :=
  ⟨by decide, rfl, by decide⟩

/-- C9 (amended): `converted` counts written output files, not rules: it
always equals `outputFiles.length`, which is the rule count only for
single-rule-per-file dialects; for a multiplexing target such as Codex CLI
it is `1` per successful run regardless of how many rules were
converted. -/
theorem C9_amended_converted_counts_files :
    (∀ (rules : List Rule) (targets : List String) (outputPath : String)
        (st : Stringify) (w : World),
      (convertRules rules targets outputPath st w).2.converted
        = (convertRules rules targets outputPath st w).2.outputFiles.length)
    ∧ (∀ (rules : List Rule) (st : Stringify) (w : World),
      w.writeFails "AGENTS.md" = false →
      (convertRules rules ["Codex CLI"] "." st w).2.converted = 1) := by
  constructor
  · intro rules targets outputPath st w
    have h := convertRulesLoop_converted_eq_files targets rules outputPath st w
      { success := true, converted := 0, skipped := 0, errors := [], outputFiles := [] }
    simpa [convertRules] using h
  · intro rules st w hfail
    have hE : getEditorByDisplayName "Codex CLI" = some .codex := by decide
    simp only [convertRules, convertRulesLoop, hE, convertToEditor,
      convertToSingleFile, writeFileSync, EDITOR_CONFIGS, pathJoin]
    simp [hfail]

/-- Witness for the amended C9: two rules to Codex CLI on a clean world
still give `converted = 1`. -/
theorem C9_amended_converted_counts_files_witness :
    emptyWorld.writeFails "AGENTS.md" = false
    ∧ (convertRules [patternRule, namingRule] ["Codex CLI"] "." sampleStringify
        emptyWorld).2.converted = 1 :=
  ⟨rfl, C9_amended_converted_counts_files.2 [patternRule, namingRule]
    sampleStringify emptyWorld rfl⟩

theorem lookup_setFile_self (files : List (String × String)) (p c : String) :
    List.lookup p (setFile files p c) = some c := by
  induction files with
  | nil => simp [setFile, List.lookup]
  | cons hd rest ih =>
    obtain ⟨q, d⟩ := hd
    by_cases h : q = p
    · subst h
      simp [setFile, List.lookup]
    · simp only [setFile, if_neg (by simp [h] : ¬(q == p) = true)]
      simp [List.lookup, beq_eq_false_iff_ne.mpr (Ne.symm h), ih]

/-- A successful single-target Codex CLI run in closed form: the shared
file is written once with the assembled content, one log entry, one output
path. -/
theorem convertRules_codex_run (rules : List Rule) (st : Stringify) (w : World)
    (hfail : w.writeFails "AGENTS.md" = false) :
    convertRules rules ["Codex CLI"] "." st w
      = ({ files := setFile w.files "AGENTS.md" (singleFileContent rules .codex),
           writeFails := w.writeFails,
           writeLog := w.writeLog ++ ["AGENTS.md"] },
         { success := true, converted := 1, skipped := 0, errors := [],
           outputFiles := ["AGENTS.md"] }) := by
  have hE : getEditorByDisplayName "Codex CLI" = some .codex := by decide
  simp [convertRules, convertRulesLoop, hE, convertToEditor, convertToSingleFile,
    writeFileSync, pathJoin, EDITOR_CONFIGS, hfail]

/-- C7: running `convert` twice with the identical rule list against the
multiplexing Codex CLI target is idempotent — the shared AGENTS.md content
(and hence its set of named sections) is unchanged by the second run, and
each run writes the file exactly once, not once per rule. -/
theorem C7_convert_idempotent (rules : List Rule) (st : Stringify) (w : World)
    (hfail : w.writeFails "AGENTS.md" = false) :
    List.lookup "AGENTS.md"
        (convertRules rules ["Codex CLI"] "." st
          (convertRules rules ["Codex CLI"] "." st w).1).1.files
      = List.lookup "AGENTS.md" (convertRules rules ["Codex CLI"] "." st w).1.files
    ∧ Option.map sectionNamesOf
        (List.lookup "AGENTS.md"
          (convertRules rules ["Codex CLI"] "." st
            (convertRules rules ["Codex CLI"] "." st w).1).1.files)
      = Option.map sectionNamesOf
          (List.lookup "AGENTS.md" (convertRules rules ["Codex CLI"] "." st w).1.files)
    ∧ (convertRules rules ["Codex CLI"] "." st w).1.writeLog
        = w.writeLog ++ ["AGENTS.md"]
    ∧ (convertRules rules ["Codex CLI"] "." st
          (convertRules rules ["Codex CLI"] "." st w).1).1.writeLog
        = w.writeLog ++ ["AGENTS.md"] ++ ["AGENTS.md"]
    ∧ (convertRules rules ["Codex CLI"] "." st w).2.outputFiles = ["AGENTS.md"] := by
  have h1 := convertRules_codex_run rules st w hfail
  have hfail2 : (convertRules rules ["Codex CLI"] "." st w).1.writeFails "AGENTS.md" = false := by
    rw [h1]; exact hfail
  have h2 := convertRules_codex_run rules st _ hfail2
  rw [h2, h1]
  simp [lookup_setFile_self]

/-- Witness for C7 at a concrete two-rule batch on an empty world. -/
theorem C7_convert_idempotent_witness :
    emptyWorld.writeFails "AGENTS.md" = false
    ∧ List.lookup "AGENTS.md"
        (convertRules [patternRule, namingRule] ["Codex CLI"] "." sampleStringify
          (convertRules [patternRule, namingRule] ["Codex CLI"] "." sampleStringify
            emptyWorld).1).1.files
      = List.lookup "AGENTS.md"
          (convertRules [patternRule, namingRule] ["Codex CLI"] "." sampleStringify
            emptyWorld).1.files
    ∧ (convertRules [patternRule, namingRule] ["Codex CLI"] "." sampleStringify
        emptyWorld).1.writeLog = emptyWorld.writeLog ++ ["AGENTS.md"] :=
  ⟨rfl,
    (C7_convert_idempotent [patternRule, namingRule] sampleStringify emptyWorld rfl).1,
    (C7_convert_idempotent [patternRule, namingRule] sampleStringify emptyWorld rfl).2.2.1⟩

end CrossRule
